import Mathlib

/-!
Shallow embedding of src/StructReader/Struct_Reader.py.

The source is a two-stage pipeline: a builder layer (`_TypeFactory` /
`BaseType`) produces descriptor nodes, `CompileType` / `CompileStruct`
lower them to canonical tuples, and `StructObj.Parse` with its per-tag
routines interprets the canonical tuples against a seekable byte source
(`BytesIO`), threading one shared binding context (`self._Ctx`).

Modelling decisions, all read off the source:
  * byte sources are a byte list plus a cursor; the data is never written,
    so the cursor is the only mutable stream state;
  * Python exceptions become an `Except` whose error value travels with
    the context and cursor as they were at raise time, mirroring the fact
    that Python mutations survive a propagating exception;
  * `FLOAT` nodes do not occur in the canonical type: the only way the
    source can make one is `BaseType.__init__` with `typeIndex == FLOAT`,
    which unpacks a two element tuple into three slots and always raises
    (the float builders are modelled separately, see `floatFactoryItem`);
  * `STR` nodes are left out of the canonical type: their final step calls
    the Python codec machinery, an external collaborator per the spec, and
    no claim concerns them; every other tag of the dispatch table is here.
-/

namespace StructReader

/-- Runtime values produced by the interpreter: Python int, bool, str,
bytes, list and the attribute-per-field `Struct` result object, which is
modelled as its ordered field list. -/
inductive Value where
  | vInt (i : Int)
  | vBool (b : Bool)
  | vStr (s : String)
  | vBytes (bs : List Nat)
  | vList (vs : List Value)
  | vStruct (fields : List (String × Value))

/-- A user supplied transform callable for `FUNC` nodes: positional
arguments in, one value out, may raise (the raised object is not
inspected further). -/
def PyFunc := List Value → Except Unit Value

/-- Canonical nodes, the tuples produced by `CompileType`: the first tuple
slot is the type tag, the rest are the resolved parameters that the
matching `Parse*` routine unpacks. -/
inductive CType where
  | cInt (size : Nat) (signed : Bool) (order : String)
  | cUvarint
  | cBool
  | cPos
  | cConst (v : Value)
  | cVar (name : String)
  | cBytes (len : CType)
  | cBytes2 (len : CType)
  | cList (count : CType) (value : CType)
  | cStruct (fields : List (String × CType))
  | cGroup (params : List CType)
  | cFunc (f : PyFunc) (params : CType)
  | cMatch (cond : CType) (results : List CType)
  | cSeek (offset : CType) (mode : Nat)
  | cPeek (v : CType)

/-- Python exceptions that the source can raise while decoding.
`runtimeError` is the `raise RuntimeError(v)` wrapper of `Parse`: it
carries the failing canonical node, and the original exception rides
along as the implicitly chained context.  `recursionError` is the
fuel-exhaustion artefact of the embedding, the analogue of the Python
RecursionError on over-deep schemas; no claim relies on it. -/
inductive PyErr where
  | eofError
  | keyError (name : String)
  | indexError
  | valueError
  | typeError
  | transformError
  | recursionError
  | runtimeError (node : CType) (cause : PyErr)

/-- Python startswith, on the underlying character lists. -/
def strStarts (s p : String) : Bool := p.data.isPrefixOf s.data

/-- Python endswith, on the underlying character lists. -/
def strEnds (s p : String) : Bool := p.data.isSuffixOf s.data

/-- Python `x or d` for an optional string slot: `None` (and the empty
string) are falsy and fall back to the default. -/
def pyOr (o : Option String) (d : String) : String :=
  match o with
  | some s => if s = "" then d else s
  | none => d

/-! ### Descriptor nodes and the builder layer

`BaseType` instances as the builders can actually produce, plus the plain
literals and nested schema classes that `CompileType` also accepts. The
`Bits` slot of an integer node already holds the byte count, because
`_TypeFactory.__getitem__` stores `args // 8` into it. -/

/-- Pre-compile descriptor values: everything `CompileType` dispatches on.
`other` stands for any value that is none of BaseType, int, bool, str or a
schema class, which `CompileType` rejects with `TypeError`. -/
inductive BVal where
  | bInt (size : Nat) (order : Option String) (sign : Bool)
  | bUvarint
  | bBool
  | bPos
  | bBytes (len : BVal)
  | bVar (name : String)
  | bList (count : BVal) (value : BVal)
  | bGroup (params : List BVal)
  | bFunc (f : PyFunc) (params : BVal)
  | bMatch (bfunc : BVal) (results : List BVal)
  | bSeek (offset : BVal) (mode : Nat)
  | bPeek (v : BVal)
  | litInt (i : Int)
  | litBool (b : Bool)
  | litStr (s : String)
  | schema (fields : List (String × BVal))
  | other

/-- The `Params` list that `_TypeFactory.__init__` stores for a name that
starts with Int or UInt: the byte-order slot is the string literal `big`
for a BE suffix, the string literal `Little` for a LE suffix (capital L,
exactly as on line 68 of the source) and `None` otherwise. -/
def intFactoryOrder (tName : String) : Option String :=
  if strEnds tName ("BE") then some ("big")
  else if strEnds tName ("LE") then some ("Little")
  else none

/-- The signedness slot of the factory `Params` list: `tName.startswith`
of the string Int, so the UInt family is unsigned. -/
def intFactorySigned (tName : String) : Bool := strStarts tName ("Int")

/-- `_TypeFactory.__getitem__` for an integer builder: it forms the tuple
`(bits // 8, order, signed)` and `BaseType.__init__` unpacks it into the
`Bits`, `Order` and `Sign` slots.  The bit-width is floor-divided by 8;
no divisibility check exists anywhere on this path. -/
def intFactoryItem (tName : String) (bits : Nat) : BVal :=
  .bInt (bits / 8) (intFactoryOrder tName) (intFactorySigned tName)

/-- Heterogeneous tuple slots, for modelling the argument tuple that
`_TypeFactory.__getitem__` passes to `BaseType.__init__`. -/
inductive PySlot where
  | num (n : Nat)
  | str (s : String)
  | noneV
  | boolV (b : Bool)
deriving DecidableEq

/-- The `Params` list stored by `_TypeFactory.__init__` for a name that
starts with Float: one single slot, the struct byte-order character. -/
def floatFactoryParams (tName : String) : List PySlot :=
  [if strEnds tName ("BE") then .str (">")
   else if strEnds tName ("LE") then .str ("<")
   else .noneV]

/-- `_TypeFactory.__getitem__`: with a non-empty `Params` list the
subscript becomes the tuple `(args // 8, *Params)`. -/
def factoryItemTuple (bits : Nat) (params : List PySlot) : List PySlot :=
  .num (bits / 8) :: params

/-- `BaseType.__init__` for the FLOAT tag executes
`self.Bits, self.Order, self.Sign = value`: tuple unpacking succeeds only
for exactly three elements and raises `ValueError` otherwise. -/
def baseTypeInitFloat (value : List PySlot) : Except PyErr (PySlot × PySlot × PySlot) :=
  match value with
  | [a, b, c] => .ok (a, b, c)
  | _ => .error .valueError

/-- Building `Float[bits]` (likewise FloatBE, FloatLE): the factory tuple
has two elements, `(bits // 8, order)`, so the three-slot unpacking in
`BaseType.__init__` decides the outcome. -/
def floatFactoryItem (tName : String) (bits : Nat) : Except PyErr (PySlot × PySlot × PySlot) :=
  baseTypeInitFloat (factoryItemTuple bits (floatFactoryParams tName))

/-! ### The schema compiler -/

mutual

/-- `CompileType`: lower one descriptor value to a canonical node, baking
in the byte order, float order, encoding and hex-mode defaults.  A value
that is no descriptor, literal or schema raises `TypeError`. -/
def compileType (v : BVal) (order order2 encoding : String) (bytesToHex : Bool) :
    Except PyErr CType :=
  match v with
  | .bVar n => .ok (.cVar n)
  | .bInt size o sgn => .ok (.cInt size sgn (pyOr o order))
  | .bUvarint => .ok .cUvarint
  | .bPos => .ok .cPos
  | .bBool => .ok .cBool
  | .bSeek off mode =>
      (compileType off order order2 encoding bytesToHex).map (fun c => .cSeek c mode)
  | .bPeek x =>
      (compileType x order order2 encoding bytesToHex).map CType.cPeek
  | .bGroup ps =>
      (compileList ps order order2 encoding bytesToHex).map CType.cGroup
  | .bFunc f params =>
      (compileType params order order2 encoding bytesToHex).map (CType.cFunc f)
  | .bMatch bf results => do
      let c ← compileType bf order order2 encoding bytesToHex
      let rs ← compileList results order order2 encoding bytesToHex
      .ok (.cMatch c rs)
  | .bBytes len =>
      (compileType len order order2 encoding bytesToHex).map
        (fun c => if bytesToHex then .cBytes2 c else .cBytes c)
  | .bList cnt val => do
      let c ← compileType cnt order order2 encoding bytesToHex
      let w ← compileType val order order2 encoding bytesToHex
      .ok (.cList c w)
  | .litInt i => .ok (.cConst (.vInt i))
  | .litBool b => .ok (.cConst (.vBool b))
  | .litStr s => .ok (.cConst (.vStr s))
  | .schema fields =>
      (compileFields fields order order2 encoding bytesToHex).map CType.cStruct
  | .other => .error .typeError

/-- The list comprehension inside `CompileType` for GROUP params and MATCH
results. -/
def compileList (vs : List BVal) (order order2 encoding : String) (bytesToHex : Bool) :
    Except PyErr (List CType) :=
  match vs with
  | [] => .ok []
  | v :: rest => do
      let c ← compileType v order order2 encoding bytesToHex
      let cs ← compileList rest order order2 encoding bytesToHex
      .ok (c :: cs)

/-- The dict comprehension of `CompileStruct`, after the dunder-name
filter: compile each field of a schema in declared order, with the same
(already resolved) defaults at every nesting level. -/
def compileFields (fields : List (String × BVal)) (order order2 encoding : String)
    (bytesToHex : Bool) : Except PyErr (List (String × CType)) :=
  match fields with
  | [] => .ok []
  | (n, v) :: rest => do
      let c ← compileType v order order2 encoding bytesToHex
      let cs ← compileFields rest order order2 encoding bytesToHex
      .ok ((n, c) :: cs)

end

/-- `CompileStruct`: resolve the float byte order from the integer order
when the caller leaves it `None`, then compile every field. -/
def compileStruct (fields : List (String × BVal)) (order : String) (encoding : String)
    (order2 : Option String) (bytesToHex : Bool) : Except PyErr (List (String × CType)) :=
  let o2 := match order2 with
    | none => if order = "big" then ">" else "<"
    | some s => s
  compileFields fields order o2 encoding bytesToHex

/-! ### The byte source and primitive reads -/

/-- The binding context `self._Ctx`: a dict from field name to decoded
value.  Assignment is modelled by prepending, lookup by first match, so a
later binding under the same name shadows an earlier one exactly as a
dict overwrite does. -/
def Ctx := List (String × Value)

/-- Dict lookup `ctx[name]`. -/
def ctxGet (ctx : Ctx) (n : String) : Option Value :=
  (List.find? (fun p => p.1 == n) ctx).map (fun p => p.2)

/-- Dict assignment `ctx[name] = v`. -/
def ctxSet (ctx : Ctx) (n : String) (v : Value) : Ctx := (n, v) :: ctx

/-- Little-endian unsigned value of a byte sequence: the first byte is the
least significant. -/
def leValue : List Nat → Nat
  | [] => 0
  | b :: rest => b + 256 * leValue rest

/-- Python `int.from_bytes(bs, order, signed=signed)`: only the exact
strings little and big are accepted as a byte order, anything else raises
`ValueError`; with `signed=True` the value is the two of-complement
reading over the full width. -/
def pyIntFromBytes (bs : List Nat) (order : String) (signed : Bool) : Except PyErr Int :=
  let adjust : Nat → Int := fun u =>
    if signed ∧ 2 ^ (8 * bs.length) ≤ 2 * u then (u : Int) - 2 ^ (8 * bs.length)
    else (u : Int)
  if order = "little" then .ok (adjust (leValue bs))
  else if order = "big" then .ok (adjust (leValue bs.reverse))
  else .error .valueError

/-- Python accepts an int (and a bool, which is an int subclass) wherever
the interpreter consumes a count, an offset or an index; any other value
raises `TypeError`. -/
def asIndex : Value → Except PyErr Int
  | .vInt i => .ok i
  | .vBool b => .ok (if b then 1 else 0)
  | _ => .error .typeError

/-- One lowercase hex digit. -/
def hexDigit (d : Nat) : Char := Char.ofNat (if d < 10 then 48 + d else 87 + d)

/-- Python `bytes.hex()`: two lowercase hex digits per byte. -/
def bytesHex (bs : List Nat) : String :=
  String.mk (bs.flatMap (fun b => [hexDigit (b / 16 % 16), hexDigit (b % 16)]))

/-- `BytesIO.seek(off, mode)`: mode 0 is absolute (a negative offset
raises `ValueError`), mode 1 is relative to the cursor, mode 2 relative to
the end; a negative resulting position raises `ValueError`, positions
beyond the end are allowed. -/
def pySeek (len pos : Nat) (off : Int) (mode : Nat) : Except PyErr Nat :=
  if mode = 0 then
    if off < 0 then .error .valueError else .ok off.toNat
  else if mode = 1 then
    let t : Int := (pos : Int) + off
    if t < 0 then .error .valueError else .ok t.toNat
  else if mode = 2 then
    let t : Int := (len : Int) + off
    if t < 0 then .error .valueError else .ok t.toNat
  else .error .valueError

/-- The loop of `ParseUvarint` over the bytes still ahead of the cursor:
read one byte at a time, or-in the low seven bits at the current shift,
stop on a clear continuation bit.  Returns the outcome together with how
many bytes were consumed; running out of input raises `EOFError`. -/
def uvarintLoop : List Nat → Nat → Nat → (Except PyErr Nat) × Nat
  | [], _, _ => (.error .eofError, 0)
  | b :: rest, value, shift =>
    let value2 := value ||| ((b &&& 127) <<< shift)
    if b &&& 128 = 0 then (.ok value2, 1)
    else
      let r := uvarintLoop rest value2 (shift + 7)
      (r.1, r.2 + 1)

/-- Python `f(*value)` argument unpacking: lists and tuples unpack
elementwise, a str iterates over one-character strings, bytes iterate
over ints; the remaining value shapes here are not iterable and raise
`TypeError`. -/
def pyUnpackArgs : Value → Except PyErr (List Value)
  | .vList vs => .ok vs
  | .vStr s => .ok (s.data.map (fun c => .vStr (String.mk [c])))
  | .vBytes bs => .ok (bs.map (fun b => .vInt (b : Int)))
  | _ => .error .typeError

/-! ### The stream interpreter

`pyDecode` is the dispatch `self.Get(v[0])(r, v)`; `pyParse` is
`StructObj.Parse`; `pyDecodeList` is the `range(loop)` comprehension of
`ParseList`; `pyGroup` the comprehension of `ParseGroup`.  Each function
returns the outcome together with the binding context and cursor as left
behind, whether the outcome is a value or a propagating exception.

The recursion of the source is general (nodes nest and lists repeat), so
the embedding threads a fuel counter, decremented at every nested call;
exhausted fuel is the analogue of the Python RecursionError and every
theorem quantifies over the fuel it needs, so the artificial case never
carries a claim. -/

mutual

def pyDecode (data : List Nat) : Nat → CType → Ctx → Nat → (Except PyErr Value) × Ctx × Nat
  | 0, _, ctx, pos => (.error .recursionError, ctx, pos)
  | _ + 1, .cInt size signed order, ctx, pos =>
    let chunk := (data.drop pos).take size
    (match pyIntFromBytes chunk order signed with
     | .ok i => (.ok (.vInt i), ctx, pos + chunk.length)
     | .error e => (.error e, ctx, pos + chunk.length))
  | _ + 1, .cUvarint, ctx, pos =>
    (match uvarintLoop (data.drop pos) 0 0 with
     | (.ok v, c) => (.ok (.vInt v), ctx, pos + c)
     | (.error e, c) => (.error e, ctx, pos + c))
  | _ + 1, .cBool, ctx, pos =>
    (match (data.drop pos).take 1 with
     | [] => (.error .eofError, ctx, pos)
     | b :: _ => (.ok (.vBool (b != 0)), ctx, pos + 1))
  | _ + 1, .cPos, ctx, pos => (.ok (.vInt pos), ctx, pos)
  | _ + 1, .cConst v, ctx, pos => (.ok v, ctx, pos)
  | _ + 1, .cVar n, ctx, pos =>
    (match ctxGet ctx n with
     | some v => (.ok v, ctx, pos)
     | none => (.error (.keyError n), ctx, pos))
  | fuel + 1, .cBytes len, ctx, pos =>
    (match pyDecode data fuel len ctx pos with
     | (.error e, ctx2, pos2) => (.error e, ctx2, pos2)
     | (.ok lv, ctx2, pos2) =>
       match asIndex lv with
       | .error e => (.error e, ctx2, pos2)
       | .ok n =>
         let chunk := if n < 0 then data.drop pos2 else (data.drop pos2).take n.toNat
         (.ok (.vBytes chunk), ctx2, pos2 + chunk.length))
  | fuel + 1, .cBytes2 len, ctx, pos =>
    (match pyDecode data fuel len ctx pos with
     | (.error e, ctx2, pos2) => (.error e, ctx2, pos2)
     | (.ok lv, ctx2, pos2) =>
       match asIndex lv with
       | .error e => (.error e, ctx2, pos2)
       | .ok n =>
         let chunk := if n < 0 then data.drop pos2 else (data.drop pos2).take n.toNat
         (.ok (.vStr (bytesHex chunk)), ctx2, pos2 + chunk.length))
  | fuel + 1, .cList cnt v, ctx, pos =>
    (match pyDecode data fuel cnt ctx pos with
     | (.error e, ctx2, pos2) => (.error e, ctx2, pos2)
     | (.ok cv, ctx2, pos2) =>
       match asIndex cv with
       | .error e => (.error e, ctx2, pos2)
       | .ok i =>
         match pyDecodeList data fuel v i.toNat ctx2 pos2 with
         | (.error e, ctx3, pos3) => (.error e, ctx3, pos3)
         | (.ok vs, ctx3, pos3) => (.ok (.vList vs), ctx3, pos3))
  | fuel + 1, .cStruct fields, ctx, pos =>
    (match pyParse data fuel fields ctx pos with
     | (.error e, ctx2, pos2) => (.error e, ctx2, pos2)
     | (.ok fs, ctx2, pos2) => (.ok (.vStruct fs), ctx2, pos2))
  | fuel + 1, .cGroup ps, ctx, pos =>
    (match pyGroup data fuel ps ctx pos with
     | (.error e, ctx2, pos2) => (.error e, ctx2, pos2)
     | (.ok vs, ctx2, pos2) => (.ok (.vList vs), ctx2, pos2))
  | fuel + 1, .cFunc f params, ctx, pos =>
    (match pyDecode data fuel params ctx pos with
     | (.error e, ctx2, pos2) => (.error e, ctx2, pos2)
     | (.ok pv, ctx2, pos2) =>
       match pyUnpackArgs pv with
       | .error e => (.error e, ctx2, pos2)
       | .ok args =>
         match f args with
         | .ok v => (.ok v, ctx2, pos2)
         | .error _ => (.error .transformError, ctx2, pos2))
  | fuel + 1, .cMatch cond results, ctx, pos =>
    (match pyDecode data fuel cond ctx pos with
     | (.error e, ctx2, pos2) => (.error e, ctx2, pos2)
     | (.ok cv, ctx2, pos2) =>
       match asIndex cv with
       | .error e => (.error e, ctx2, pos2)
       | .ok i =>
         if h : 0 ≤ i ∧ i.toNat < results.length then
           pyDecode data fuel (results.get ⟨i.toNat, h.2⟩) ctx2 pos2
         else if h2 : i < 0 ∧ 0 ≤ i + results.length then
           pyDecode data fuel
             (results.get ⟨(i + results.length).toNat, by omega⟩) ctx2 pos2
         else (.error .indexError, ctx2, pos2))
  | fuel + 1, .cSeek off mode, ctx, pos =>
    (match pyDecode data fuel off ctx pos with
     | (.error e, ctx2, pos2) => (.error e, ctx2, pos2)
     | (.ok ov, ctx2, pos2) =>
       match asIndex ov with
       | .error e => (.error e, ctx2, pos2)
       | .ok i =>
         match pySeek data.length pos2 i mode with
         | .error e => (.error e, ctx2, pos2)
         | .ok np => (.ok (.vInt (-1)), ctx2, np))
  | fuel + 1, .cPeek v, ctx, pos =>
    (match pyDecode data fuel v ctx pos with
     | (.error e, ctx2, pos2) => (.error e, ctx2, pos2)
     | (.ok vv, ctx2, _) => (.ok vv, ctx2, pos))
termination_by structural fuel _ _ _ => fuel

def pyDecodeList (data : List Nat) : Nat → CType → Nat → Ctx → Nat →
    (Except PyErr (List Value)) × Ctx × Nat
  | _, _, 0, ctx, pos => (.ok [], ctx, pos)
  | 0, _, _ + 1, ctx, pos => (.error .recursionError, ctx, pos)
  | fuel + 1, v, n + 1, ctx, pos =>
    (match pyDecode data fuel v ctx pos with
     | (.error e, ctx2, pos2) => (.error e, ctx2, pos2)
     | (.ok x, ctx2, pos2) =>
       match pyDecodeList data fuel v n ctx2 pos2 with
       | (.error e, ctx3, pos3) => (.error e, ctx3, pos3)
       | (.ok xs, ctx3, pos3) => (.ok (x :: xs), ctx3, pos3))
termination_by structural fuel _ _ _ _ => fuel

def pyGroup (data : List Nat) : Nat → List CType → Ctx → Nat →
    (Except PyErr (List Value)) × Ctx × Nat
  | _, [], ctx, pos => (.ok [], ctx, pos)
  | 0, _ :: _, ctx, pos => (.error .recursionError, ctx, pos)
  | fuel + 1, p :: rest, ctx, pos =>
    (match pyDecode data fuel p ctx pos with
     | (.error e, ctx2, pos2) => (.error e, ctx2, pos2)
     | (.ok x, ctx2, pos2) =>
       match pyGroup data fuel rest ctx2 pos2 with
       | (.error e, ctx3, pos3) => (.error e, ctx3, pos3)
       | (.ok xs, ctx3, pos3) => (.ok (x :: xs), ctx3, pos3))
termination_by structural fuel _ _ _ => fuel

def pyParse (data : List Nat) : Nat → List (String × CType) → Ctx → Nat →
    (Except PyErr (List (String × Value))) × Ctx × Nat
  | _, [], ctx, pos => (.ok [], ctx, pos)
  | 0, _ :: _, ctx, pos => (.error .recursionError, ctx, pos)
  | fuel + 1, (n, node) :: rest, ctx, pos =>
    (match pyDecode data fuel node ctx pos with
     | (.error e, ctx2, pos2) => (.error (.runtimeError node e), ctx2, pos2)
     | (.ok v, ctx2, pos2) =>
       match pyParse data fuel rest (ctxSet ctx2 n v) pos2 with
       | (.error e, ctx3, pos3) => (.error e, ctx3, pos3)
       | (.ok fs, ctx3, pos3) => (.ok ((n, v) :: fs), ctx3, pos3))
termination_by structural fuel _ _ _ => fuel

end

/-- The top-level entry point `ParseStruct`, for an already-compiled
schema and a raw byte block: the shared interpreter context is assigned
`{}` before the pass; the second `cls._Ctx = {}` runs only when `Parse`
returns, because no try/finally protects it — a propagating exception
leaves the context as it stood at the point of failure. -/
def parseStructTop (fuel : Nat) (schema : List (String × CType)) (data : List Nat) :
    (Except PyErr Value) × Ctx :=
  match pyParse data fuel schema [] 0 with
  | (.ok fields, _, _) => (.ok (.vStruct fields), [])
  | (.error e, ctx, _) => (.error e, ctx)

/-! ### Reference definitions, written from the words of the spec -/

/-- Reference LEB128 encoder (an independent reference encoder per the
spec): seven value bits per byte, least significant group first, high bit
set on every byte except the last. -/
def leb128 (v : Nat) : List Nat :=
  if v < 128 then [v] else (v % 128 + 128) :: leb128 (v / 128)
termination_by v
decreasing_by
  simp_wf
  omega

/-- Reference unsigned byte-string value in a given byte order: in
big-endian the first byte is the most significant. -/
def refUnsigned (bigEndian : Bool) (bs : List Nat) : Nat :=
  (if bigEndian then bs else bs.reverse).foldl (fun acc b => 256 * acc + b) 0

/-- Reference two of-complement interpretation: values with the top bit
clear are themselves, values with the top bit set wrap down by the full
width. -/
def refTwos (bigEndian : Bool) (bs : List Nat) : Int :=
  let u := refUnsigned bigEndian bs
  if u < 2 ^ (8 * bs.length - 1) then (u : Int) else (u : Int) - 2 ^ (8 * bs.length)

/-! ### Arithmetic facts about the varint loop and byte values -/

/-- Oring a chunk shifted past an accumulator whose bits all sit below the
shift is plain addition. -/
theorem lor_shiftLeft_eq_add {a : Nat} (b n : Nat) (h : a < 2 ^ n) :
    a ||| (b <<< n) = a + b * 2 ^ n := by
  have h2 := Nat.mul_add_lt_is_or h b
  rw [Nat.shiftLeft_eq, Nat.lor_comm, Nat.mul_comm b (2 ^ n), ← h2]
  omega

/-- Masking with 127 keeps the low seven bits. -/
theorem and_127_eq_mod (b : Nat) : b &&& 127 = b % 128 := by
  have h := Nat.and_pow_two_sub_one_eq_mod b 7
  norm_num at h
  exact h

/-- A byte below 128 has a clear continuation bit. -/
theorem and_128_low {b : Nat} (h : b < 128) : b &&& 128 = 0 := by
  have h2 := Nat.and_two_pow b 7
  have h3 : b.testBit 7 = false := Nat.testBit_lt_two_pow (by norm_num; omega)
  rw [h3] at h2
  norm_num at h2
  exact h2

/-- A byte in [128, 256) has a set continuation bit. -/
theorem and_128_high {b : Nat} (h1 : 128 ≤ b) (h2 : b < 256) : b &&& 128 = 128 := by
  have h3 := Nat.and_two_pow b 7
  have h4 : b.testBit 7 = true := by
    rw [Nat.testBit_to_div_mod]
    have : b / 2 ^ 7 = 1 := by norm_num; omega
    rw [this]
    decide
  rw [h4] at h3
  norm_num at h3
  exact h3

/-- The reference encoding is never empty. -/
theorem leb128_ne_nil (v : Nat) : leb128 v ≠ [] := by
  rw [leb128]
  split <;> simp

/-- The decode loop, run over the reference encoding of v followed by
anything, stops exactly at the end of the encoding and adds v scaled by
the current shift into the accumulator. -/
theorem uvarintLoop_leb128 (v : Nat) : ∀ rest acc shift, acc < 2 ^ shift →
    uvarintLoop (leb128 v ++ rest) acc shift =
      (.ok (acc + v * 2 ^ shift), (leb128 v).length) := by
  induction v using Nat.strong_induction_on with
  | _ v ih =>
    intro rest acc shift hacc
    rw [leb128]
    by_cases hv : v < 128
    · rw [if_pos hv]
      simp only [List.cons_append, List.nil_append, uvarintLoop, List.length_cons,
        List.length_nil]
      rw [and_127_eq_mod, Nat.mod_eq_of_lt hv, and_128_low hv,
        lor_shiftLeft_eq_add v shift hacc]
      simp
    · rw [if_neg hv]
      have hbyte1 : (128 : Nat) ≤ v % 128 + 128 := by omega
      have hbyte2 : v % 128 + 128 < 256 := by omega
      have hb : 2 ^ (shift + 7) = 2 ^ shift * 128 := by
        rw [pow_add]
        norm_num
      simp only [List.cons_append, uvarintLoop, List.length_cons]
      rw [and_127_eq_mod, and_128_high hbyte1 hbyte2]
      have hmv : (v % 128 + 128) % 128 = v % 128 := by omega
      rw [hmv, lor_shiftLeft_eq_add (v % 128) shift hacc]
      rw [if_neg (by norm_num : ¬(128 = 0))]
      simp only [List.append_eq]
      have hlt : v / 128 < v := Nat.div_lt_self (by omega) (by norm_num)
      have hacc2 : acc + v % 128 * 2 ^ shift < 2 ^ (shift + 7) := by
        have hm : v % 128 * 2 ^ shift ≤ 127 * 2 ^ shift :=
          Nat.mul_le_mul_right (2 ^ shift) (by omega)
        omega
      have key : v * 2 ^ shift = v % 128 * 2 ^ shift + v / 128 * 2 ^ (shift + 7) := by
        rw [hb]
        conv_lhs => rw [← Nat.mod_add_div v 128]
        ring
      rw [ih (v / 128) hlt rest (acc + v % 128 * 2 ^ shift) (shift + 7) hacc2, key]
      simp [Nat.add_assoc]

/-- A list of bytes that all carry the continuation bit makes the loop
run off the end of the input and raise EOFError, consuming everything. -/
theorem uvarintLoop_allCont : ∀ (l : List Nat), (∀ b ∈ l, b &&& 128 ≠ 0) →
    ∀ acc shift, uvarintLoop l acc shift = (.error .eofError, l.length) := by
  intro l
  induction l with
  | nil => intro _ acc shift; rfl
  | cons b rest ihp =>
    intro h acc shift
    have hb : b &&& 128 ≠ 0 := h b (by simp)
    simp only [uvarintLoop, if_neg hb, List.length_cons]
    rw [ihp (fun x hx => h x (by simp [hx])) _ (shift + 7)]

/-- Every byte of the reference encoding except the last carries the
continuation bit. -/
theorem leb128_dropLast_cont (v : Nat) : ∀ b ∈ (leb128 v).dropLast, b &&& 128 ≠ 0 := by
  induction v using Nat.strong_induction_on with
  | _ v ih =>
    intro b hb
    rw [leb128] at hb
    by_cases hv : v < 128
    · rw [if_pos hv] at hb
      simp at hb
    · rw [if_neg hv] at hb
      rw [List.dropLast_cons_of_ne_nil (leb128_ne_nil (v / 128))] at hb
      rcases List.mem_cons.mp hb with h1 | h2
      · subst h1
        rw [and_128_high (by omega) (by omega)]
        omega
      · exact ih (v / 128) (Nat.div_lt_self (by omega) (by norm_num)) b h2

/-- C4: decoding the reference LEB128 encoding of any non-negative V with
the Unsigned-varint routine yields exactly V (consuming exactly the
encoding, with anything at all allowed to follow it), and decoding the
encoding truncated by its last byte fails with EOFError, the
unexpected-end-of-input failure. -/
theorem claim_C4 (fuel V : Nat) (rest : List Nat) (ctx : Ctx) :
    pyDecode (leb128 V ++ rest) (fuel + 1) .cUvarint ctx 0 =
      (.ok (.vInt (V : Int)), ctx, (leb128 V).length) ∧
    pyDecode ((leb128 V).dropLast) (fuel + 1) .cUvarint ctx 0 =
      (.error .eofError, ctx, (leb128 V).dropLast.length) := by
  constructor
  · simp only [pyDecode, List.drop_zero]
    rw [uvarintLoop_leb128 V rest 0 0 (by norm_num)]
    simp
  · simp only [pyDecode, List.drop_zero]
    rw [uvarintLoop_allCont _ (leb128_dropLast_cont V) 0 0]
    simp

/-- Folding most-significant-first over a reversed list is the
little-endian value. -/
theorem leValue_foldr (bs : List Nat) :
    bs.foldr (fun b acc => 256 * acc + b) 0 = leValue bs := by
  induction bs with
  | nil => rfl
  | cons b t ihp =>
    simp only [List.foldr_cons, leValue, ihp]
    omega

/-- The reference little-endian value agrees with the Python accumulator. -/
theorem refUnsigned_little (bs : List Nat) : refUnsigned false bs = leValue bs := by
  rw [refUnsigned]
  simp only [Bool.false_eq_true, if_false]
  rw [List.foldl_reverse]
  exact leValue_foldr bs

/-- The reference big-endian value is the little-endian value of the
reversed bytes. -/
theorem refUnsigned_big (bs : List Nat) : refUnsigned true bs = leValue bs.reverse := by
  rw [refUnsigned, if_pos rfl, ← leValue_foldr, List.foldr_reverse]

/-- The wrap test of int.from_bytes and the top-bit test of the reference
two of-complement reading agree on every width of at least one byte. -/
theorem adjust_eq_ref (u len : Nat) (h : 0 < len) :
    (if 2 ^ (8 * len) ≤ 2 * u then (u : Int) - 2 ^ (8 * len) else (u : Int)) =
    (if u < 2 ^ (8 * len - 1) then (u : Int) else (u : Int) - 2 ^ (8 * len)) := by
  have hp : (2 : Nat) ^ (8 * len) = 2 * 2 ^ (8 * len - 1) := by
    conv_lhs => rw [show 8 * len = (8 * len - 1) + 1 by omega]
    rw [pow_succ]
    ring
  split_ifs with h1 h2
  · omega
  · rfl
  · rfl
  · omega

/-- A successful int.from_bytes call computes exactly the reference
unsigned or two of-complement interpretation of the byte string. -/
theorem pyIntFromBytes_eq_ref (bs : List Nat) (signed bigE : Bool) (h : 0 < bs.length) :
    pyIntFromBytes bs (if bigE then "big" else "little") signed =
      .ok (if signed then refTwos bigE bs else (refUnsigned bigE bs : Int)) := by
  have hadj := adjust_eq_ref (leValue bs) bs.length h
  have hadj2 := adjust_eq_ref (leValue bs.reverse) bs.length h
  cases bigE
  · cases signed
    · simp [pyIntFromBytes, refUnsigned_little]
    · simpa [pyIntFromBytes, refTwos, refUnsigned_little] using hadj
  · cases signed
    · simp [pyIntFromBytes, refUnsigned_big]
    · simpa [pyIntFromBytes, refTwos, refUnsigned_big] using hadj2

/-- Decoding a canonical integer node whose byte order resolved to the
accepted strings little or big reads the whole chunk and computes the
reference interpretation. -/
theorem pyDecode_cInt_ref (fuel : Nat) (bs : List Nat) (signed : Bool) (ord : String)
    (ctx : Ctx) (h : 0 < bs.length) (ho : ord = "little" ∨ ord = "big") :
    pyDecode bs (fuel + 1) (.cInt bs.length signed ord) ctx 0 =
      (.ok (.vInt (if signed then refTwos (ord == "big") bs
                   else (refUnsigned (ord == "big") bs : Int))), ctx, bs.length) := by
  have hl : pyDecode bs (fuel + 1) (.cInt bs.length signed ord) ctx 0 =
      (match pyIntFromBytes bs ord signed with
       | .ok i => (.ok (.vInt i), ctx, 0 + bs.length)
       | .error e => (.error e, ctx, 0 + bs.length)) := by
    simp only [pyDecode, List.drop_zero, List.take_length]
  rcases ho with rfl | rfl
  · rw [hl, show ("little" : String) = (if (false : Bool) then "big" else "little") from rfl,
      pyIntFromBytes_eq_ref bs signed false h]
    simp
  · rw [hl, show ("big" : String) = (if (true : Bool) then "big" else "little") from rfl,
      pyIntFromBytes_eq_ref bs signed true h]
    simp

/-- C1: the builders Int and UInt (default byte order) and IntBE and
UIntBE (big-endian) compile, for each width in {8,16,32,64} and each
default order little or big, into canonical integer nodes whose decode of
a full-width input equals the reference two of-complement (signed
builders) or unsigned interpretation in the resolved order — while the
IntLE and UIntLE builders store the misspelt order string Little, which
int.from_bytes rejects, so every decode through them raises ValueError
instead of returning the little-endian value. -/
theorem claim_C1 :
    (∀ tName d o2 enc hx bits (bs : List Nat),
      (tName = "Int" ∨ tName = "UInt" ∨ tName = "IntBE" ∨ tName = "UIntBE") →
      (d = "little" ∨ d = "big") →
      (bits = 8 ∨ bits = 16 ∨ bits = 32 ∨ bits = 64) →
      bs.length = bits / 8 →
      (∀ b ∈ bs, b < 256) →
      compileType (intFactoryItem tName bits) d o2 enc hx =
        .ok (.cInt (bits / 8) (intFactorySigned tName) (pyOr (intFactoryOrder tName) d)) ∧
      ∀ fuel, pyDecode bs (fuel + 1) (.cInt (bits / 8) (intFactorySigned tName)
          (pyOr (intFactoryOrder tName) d)) [] 0 =
        (.ok (.vInt (if intFactorySigned tName
            then refTwos (pyOr (intFactoryOrder tName) d == "big") bs
            else (refUnsigned (pyOr (intFactoryOrder tName) d == "big") bs : Int))),
         [], bs.length)) ∧
    (compileType (intFactoryItem ("IntLE") 8) "little" "<" "utf-8" false =
        .ok (.cInt 1 true ("Little")) ∧
      ∀ fuel, pyDecode [5] (fuel + 1) (.cInt 1 true ("Little")) [] 0 =
        (.error .valueError, [], 1)) := by
  refine ⟨?_, ?_, ?_⟩
  · intro tName d o2 enc hx bits bs htn hd hbits hlen hbytes
    rcases htn with rfl | rfl | rfl | rfl <;> rcases hd with rfl | rfl <;>
      refine ⟨by simp [intFactoryItem, compileType], fun fuel => ?_⟩ <;>
      rw [← hlen] <;>
      exact pyDecode_cInt_ref fuel bs _ _ []
        (by rcases hbits with rfl | rfl | rfl | rfl <;> omega) (by decide)
  · simp only [intFactoryItem, compileType, Except.ok.injEq, CType.cInt.injEq]
    refine ⟨by decide, by decide, by decide⟩
  · intro fuel
    simp [pyDecode, pyIntFromBytes]

/-- C1 witness: the UIntBE builder at width 16, applied to the two bytes
01 02, decodes to the big-endian unsigned value 258. -/
theorem claim_C1_witness :
    pyDecode [1, 2] 1 (.cInt 2 false ("big")) [] 0 = (.ok (.vInt 258), [], 2) := by
  have h := (claim_C1.1 "UIntBE" "little" "<" "utf-8" false 16 [1, 2]
    (by decide) (by decide) (by decide) (by decide) (by decide)).2 0
  exact h

/-- C2: building a Float, FloatBE or FloatLE descriptor of any bit-width
(including 32 and 64) raises ValueError inside `BaseType.__init__`: the
factory passes the two element tuple (size, order) where the FLOAT branch
unpacks three slots, so no float node is ever compiled or decoded. -/
theorem claim_C2 (bits : Nat) :
    floatFactoryItem ("Float") bits = .error .valueError ∧
    floatFactoryItem ("FloatBE") bits = .error .valueError ∧
    floatFactoryItem ("FloatLE") bits = .error .valueError :=
  ⟨rfl, rfl, rfl⟩

/-- C3 counterexample: the 12-bit integer descriptor builds without any
error, floor-dividing the width to the same one-byte node that Int[8]
yields, and that node compiles successfully — no compile-time violation
is raised anywhere. -/
theorem claim_C3_counterexample :
    intFactoryItem ("Int") 12 = .bInt 1 none true ∧
    intFactoryItem ("Int") 12 = intFactoryItem ("Int") 8 ∧
    compileType (intFactoryItem ("Int") 12) "little" "<" "utf-8" false =
      .ok (.cInt 1 true ("little")) :=
  ⟨rfl, rfl, rfl⟩

/-- C3 amended: a sized integer descriptor of any bit-width, multiple of
8 or not, builds and compiles without failure; the width is silently
floor-divided by 8 into the byte size of the canonical node. -/
theorem claim_C3_amended (tName : String) (bits : Nat) (d o2 enc : String) (hx : Bool) :
    compileType (intFactoryItem tName bits) d o2 enc hx =
      .ok (.cInt (bits / 8) (intFactorySigned tName) (pyOr (intFactoryOrder tName) d)) := rfl

/-- C5: if a nested descriptor decodes successfully at cursor P, then its
Lookahead decodes to the same value with the same context effect and
leaves the cursor back at P, however far the nested decode moved it. -/
theorem claim_C5 (data : List Nat) (fuel : Nat) (D : CType) (ctx : Ctx) (P : Nat)
    (v : Value) (ctx2 : Ctx) (P2 : Nat)
    (h : pyDecode data fuel D ctx P = (.ok v, ctx2, P2)) :
    pyDecode data (fuel + 1) (.cPeek D) ctx P = (.ok v, ctx2, P) := by
  simp only [pyDecode, h]

/-- C5 witness: peeking a one-byte integer returns its value and restores
the cursor to 0 although the plain decode moved it to 1. -/
theorem claim_C5_witness :
    pyDecode [9] 1 (.cInt 1 false ("little")) [] 0 = (.ok (.vInt 9), [], 1) ∧
    pyDecode [9] 2 (.cPeek (.cInt 1 false ("little"))) [] 0 = (.ok (.vInt 9), [], 0) := by
  have h : pyDecode [9] 1 (.cInt 1 false ("little")) [] 0 = (.ok (.vInt 9), [], 1) := rfl
  exact ⟨h, claim_C5 [9] 1 _ [] 0 _ [] 1 h⟩

/-- C8: a conditional variant first decodes its condition; when the
condition value is a non-negative integer index inside the result list,
decoding continues with exactly the result descriptor at that index, and
when the index reaches past the result list the decode fails with
IndexError, the variant-index-out-of-range failure. -/
theorem claim_C8 (data : List Nat) (fuel : Nat) (cond : CType) (results : List CType)
    (ctx : Ctx) (pos : Nat) (i : Int) (ctx2 : Ctx) (pos2 : Nat)
    (hc : pyDecode data fuel cond ctx pos = (.ok (.vInt i), ctx2, pos2)) (hi : 0 ≤ i) :
    (∀ hlt : i.toNat < results.length,
        pyDecode data (fuel + 1) (.cMatch cond results) ctx pos =
          pyDecode data fuel (results.get ⟨i.toNat, hlt⟩) ctx2 pos2) ∧
    ((results.length : Int) ≤ i →
        pyDecode data (fuel + 1) (.cMatch cond results) ctx pos =
          (.error .indexError, ctx2, pos2)) := by
  constructor
  · intro hlt
    simp only [pyDecode, hc, asIndex]
    rw [dif_pos ⟨hi, hlt⟩]
  · intro hge
    simp only [pyDecode, hc, asIndex]
    rw [dif_neg (by omega), dif_neg (by omega)]

/-- C8 witness: condition value 1 against the constants x, y, z returns
y; condition value 5 against the same three results fails with
IndexError. -/
theorem claim_C8_witness :
    pyDecode [] 2 (.cMatch (.cConst (.vInt 1))
        [.cConst (.vStr ("x")), .cConst (.vStr ("y")), .cConst (.vStr ("z"))]) [] 0 =
      (.ok (.vStr ("y")), [], 0) ∧
    pyDecode [] 2 (.cMatch (.cConst (.vInt 5))
        [.cConst (.vStr ("x")), .cConst (.vStr ("y")), .cConst (.vStr ("z"))]) [] 0 =
      (.error .indexError, [], 0) := by
  have h1 : pyDecode [] 1 (.cConst (.vInt 1)) ([] : Ctx) 0 = (.ok (.vInt 1), [], 0) := rfl
  have h5 : pyDecode [] 1 (.cConst (.vInt 5)) ([] : Ctx) 0 = (.ok (.vInt 5), [], 0) := rfl
  constructor
  · have h := (claim_C8 [] 1 (.cConst (.vInt 1))
        [.cConst (.vStr ("x")), .cConst (.vStr ("y")), .cConst (.vStr ("z"))]
        [] 0 1 [] 0 h1 (by norm_num)).1 (by norm_num)
    rw [h]
    rfl
  · exact (claim_C8 [] 1 (.cConst (.vInt 5))
        [.cConst (.vStr ("x")), .cConst (.vStr ("y")), .cConst (.vStr ("z"))]
        [] 0 5 [] 0 h5 (by norm_num)).2 (by norm_num)

/-- C9: when the routine of one field raises, the field loop catches the
exception and re-raises RuntimeError carrying that field canonical node
with the original exception as cause, aborting the loop: later fields are
never decoded and no field list is returned. -/
theorem claim_C9 (data : List Nat) (fuel : Nat) (n : String) (node : CType)
    (rest : List (String × CType)) (ctx : Ctx) (pos : Nat) (e : PyErr)
    (ctx2 : Ctx) (pos2 : Nat)
    (h : pyDecode data fuel node ctx pos = (.error e, ctx2, pos2)) :
    pyParse data (fuel + 1) ((n, node) :: rest) ctx pos =
      (.error (.runtimeError node e), ctx2, pos2) := by
  simp only [pyParse, h]

/-- C9 witness: a Boolean field at end of input fails with EOFError and
the record decode aborts with the RuntimeError wrapper naming that field
node, never reaching the following field. -/
theorem claim_C9_witness :
    pyParse [] 2 [(("B" : String), CType.cBool), (("X" : String), CType.cPos)] [] 0 =
      (.error (.runtimeError .cBool .eofError), [], 0) := by
  have h : pyDecode [] 1 CType.cBool ([] : Ctx) 0 = (.error .eofError, [], 0) := rfl
  exact claim_C9 [] 1 ("B") .cBool [(("X" : String), CType.cPos)] [] 0 .eofError [] 0 h

/-- C10: a list whose count descriptor decodes to a negative integer does
not fail: `range(negative)` is empty, so the element descriptor runs zero
times and the decode returns the empty sequence with the cursor exactly
where the count decode left it. -/
theorem claim_C10 (data : List Nat) (fuel : Nat) (cnt v : CType) (ctx : Ctx) (pos : Nat)
    (i : Int) (ctx2 : Ctx) (pos2 : Nat)
    (hc : pyDecode data fuel cnt ctx pos = (.ok (.vInt i), ctx2, pos2)) (hneg : i < 0) :
    pyDecode data (fuel + 1) (.cList cnt v) ctx pos = (.ok (.vList []), ctx2, pos2) := by
  have ht : i.toNat = 0 := by omega
  simp only [pyDecode, hc, asIndex, ht, pyDecodeList]

/-- C10 witness: a list with constant count -3 over a Boolean element
returns the empty list, reads nothing and raises nothing. -/
theorem claim_C10_witness :
    pyDecode [7] 2 (.cList (.cConst (.vInt (-3))) .cBool) [] 0 =
      (.ok (.vList []), [], 0) := by
  have h : pyDecode [7] 1 (.cConst (.vInt (-3))) ([] : Ctx) 0 =
      (.ok (.vInt (-3)), [], 0) := rfl
  exact claim_C10 [7] 1 _ _ [] 0 (-3) [] 0 h (by norm_num)

/-- C6: all records of one top-level decode share one flat namespace — a
field bound in the parent is visible to a back-reference inside a later
nested sub-record (the one-byte integer A with value 5 is seen as B.C),
and a binding made inside a nested sub-record shadows an earlier
same-named binding for the remainder of the call (the sibling C after B
reads the inner A, value 2, not the outer one). -/
theorem claim_C6 :
    parseStructTop 9
        [(("A" : String), .cInt 1 true ("little")),
         (("B" : String), .cStruct [(("C" : String), .cVar ("A"))])] [5] =
      (.ok (.vStruct [(("A" : String), .vInt 5),
        (("B" : String), .vStruct [(("C" : String), .vInt 5)])]), []) ∧
    parseStructTop 9
        [(("A" : String), .cConst (.vInt 1)),
         (("B" : String), .cStruct [(("A" : String), .cConst (.vInt 2))]),
         (("C" : String), .cVar ("A"))] [] =
      (.ok (.vStruct [(("A" : String), .vInt 1),
        (("B" : String), .vStruct [(("A" : String), .vInt 2)]),
        (("C" : String), .vInt 2)]), []) :=
  ⟨rfl, rfl⟩

/-- C7 counterexample: a top-level decode that binds A and then fails on
B propagates the exception before the trailing context reset, so after
the failing call the shared context still holds the binding of A instead
of being empty. -/
theorem claim_C7_counterexample :
    parseStructTop 9
        [(("A" : String), .cInt 1 false ("little")), (("B" : String), .cBool)] [7] =
      (.error (.runtimeError .cBool .eofError), [(("A" : String), .vInt 7)]) ∧
    ([(("A" : String), Value.vInt 7)] : Ctx) ≠ ([] : Ctx) := by
  refine ⟨rfl, ?_⟩
  simp [Ctx]

/-- C7 amended: the shared context is reset to empty once before every
top-level decode pass; it is reset again after the pass only when the
pass succeeds, a failing pass propagating its exception with the context
as it stood at the failure; and a nested sub-record decode continues with
the caller current context, never a cleared one. -/
theorem claim_C7 (fuel : Nat) (schema : List (String × CType)) (data : List Nat) :
    (∀ fields ctx2 pos2, pyParse data fuel schema [] 0 = (.ok fields, ctx2, pos2) →
      parseStructTop fuel schema data = (.ok (.vStruct fields), [])) ∧
    (∀ e ctx2 pos2, pyParse data fuel schema [] 0 = (.error e, ctx2, pos2) →
      parseStructTop fuel schema data = (.error e, ctx2)) ∧
    (∀ fields ctx pos fs ctx2 pos2,
      pyParse data fuel fields ctx pos = (.ok fs, ctx2, pos2) →
      pyDecode data (fuel + 1) (.cStruct fields) ctx pos =
        (.ok (.vStruct fs), ctx2, pos2)) := by
  refine ⟨?_, ?_, ?_⟩
  · intro fields ctx2 pos2 h
    simp [parseStructTop, h]
  · intro e ctx2 pos2 h
    simp [parseStructTop, h]
  · intro fields ctx pos fs ctx2 pos2 h
    simp only [pyDecode, h]

/-- C7 witness: a successful one-field decode returns its record and
leaves the shared context reset to empty. -/
theorem claim_C7_witness :
    parseStructTop 3 [(("A" : String), .cConst (.vInt 1))] [] =
      (.ok (.vStruct [(("A" : String), .vInt 1)]), []) := by
  have h : pyParse [] 3 [(("A" : String), CType.cConst (.vInt 1))] [] 0 =
      (.ok [(("A" : String), Value.vInt 1)], [(("A" : String), Value.vInt 1)], 0) := rfl
  exact (claim_C7 3 _ []).1 _ _ _ h
